import Mathlib

/-!
Shallow embedding of the `snapshot` crate (src/RWVec.rs): a growable vector
(`RWVec<T>`) protected by a resize reader-writer lock and a push mutex,
with bounded snapshot guards (`SliceGuard`, `SliceGuardMut`) and a
whole-vector exclusive guard (`VecGuardMut`).

The heap state (the underlying `Vec<T>`) is passed explicitly to each
operation; every lock primitive the source calls is recorded, in source
order, in the list of events the operation emits.  Lock bookkeeping itself
is a small state machine (`LockState`) driven by those events.
-/

namespace Snapshot

/-- One primitive step an operation performs, in the order the source code
performs the corresponding call: the four lock transitions of the two locks,
the write of a pushed element into the buffer (`vec.push(t)`), and a guard
recording a new bound (`self.end = self.vec.len()`). -/
inductive Event : Type
  | pushLock
  | pushUnlock
  | readLock
  | readUnlock
  | writeLock
  | writeUnlock
  | pushElem
  | setEnd (n : Nat)
  deriving DecidableEq, Repr

/-- The state of one container's two locks: the push mutex
(`push_lock : StaticMutex`), and the resize reader-writer lock
(`rw_lock : StaticRwLock`) as a shared-holder count plus an
exclusive-holder flag. -/
structure LockState where
  pushHeld : Bool
  readers : Nat
  writerHeld : Bool
  deriving DecidableEq, Repr

/-- Effect of one event on the lock state. -/
def LockState.apply (s : LockState) : Event → LockState
  | .pushLock => { s with pushHeld := true }
  | .pushUnlock => { s with pushHeld := false }
  | .readLock => { s with readers := s.readers + 1 }
  | .readUnlock => { s with readers := s.readers - 1 }
  | .writeLock => { s with writerHeld := true }
  | .writeUnlock => { s with writerHeld := false }
  | .pushElem => s
  | .setEnd _ => s

/-- Effect of a trace of events on the lock state. -/
def LockState.applyAll (s : LockState) (es : List Event) : LockState :=
  es.foldl LockState.apply s

/-- `RWVec<T>`: the `data : UnsafeCell<Vec<T>>` field, as the element list
and the capacity of the underlying `Vec`.  The two locks are modelled by
`LockState` and the event traces the operations emit. -/
structure RWVec (T : Type) where
  data : List T
  capacity : Nat
  deriving DecidableEq, Repr

/-- Capacity of a Rust `Vec` after the reallocating push of a full buffer:
amortized doubling; the exact factor is internal to `Vec` and, per the spec,
not part of the contract. -/
def growCapacity (c : Nat) : Nat := max 1 (2 * c)

/-- `RWVec::new()`: an empty `Vec` (capacity 0). -/
def RWVec.new (T : Type) : RWVec T := { data := [], capacity := 0 }

/-- `RWVec::with_capacity(capacity)`. -/
def RWVec.withCapacity (T : Type) (capacity : Nat) : RWVec T :=
  { data := [], capacity := capacity }

/-- `RWVec::push`: lock the push mutex; if `capacity() == len()` the push
reallocates, so take the resize lock exclusively around `vec.push(t)` and
release it before the push mutex; otherwise `vec.push(t)` without touching
the resize lock, then release the push mutex.  Returns the new container
state and the trace of primitive steps in source order. -/
def RWVec.push {T : Type} (v : RWVec T) (t : T) : RWVec T × List Event :=
  if v.capacity = v.data.length then
    ({ data := v.data ++ [t], capacity := growCapacity v.capacity },
     [.pushLock, .writeLock, .pushElem, .writeUnlock, .pushUnlock])
  else
    ({ data := v.data ++ [t], capacity := v.capacity },
     [.pushLock, .pushElem, .pushUnlock])

/-- `SliceGuard<T>`: the shared (read) snapshot guard.  The source also
stores references to the `Vec` and to the two locks; here the container is
an explicit argument of each guard operation and the lock calls appear in
the emitted traces. -/
structure SliceGuard where
  end_ : Nat
  deriving DecidableEq, Repr

/-- `SliceGuard::new` (reached via `RWVec::reader`): take a shared hold on
the resize lock and record `end = vec.len()`. -/
def SliceGuard.new {T : Type} (v : RWVec T) : SliceGuard × List Event :=
  ({ end_ := v.data.length }, [.readLock])

/-- `RWVec::reader`. -/
def RWVec.reader {T : Type} (v : RWVec T) : SliceGuard × List Event :=
  SliceGuard.new v

/-- `SliceGuard::refresh`: release the shared resize hold, lock the push
mutex, re-take the shared resize hold, set `end = vec.len()`, unlock the
push mutex — in that source order. -/
def SliceGuard.refresh {T : Type} (_g : SliceGuard) (v : RWVec T) :
    SliceGuard × List Event :=
  ({ end_ := v.data.length },
   [.readUnlock, .pushLock, .readLock, .setEnd v.data.length, .pushUnlock])

/-- `Drop for SliceGuard`: release the shared resize hold. -/
def SliceGuard.dropEvents : List Event := [.readUnlock]

/-- `Deref for SliceGuard`: `&self.vec[..self.end]`.  Slicing past the
current `Vec` length panics in Rust, modelled as `none`. -/
def SliceGuard.view {T : Type} (g : SliceGuard) (v : RWVec T) :
    Option (List T) :=
  if g.end_ ≤ v.data.length then some (v.data.take g.end_) else none

/-- `SliceGuardMut<T>`: the exclusive (write) snapshot guard; same fields
as `SliceGuard`. -/
structure SliceGuardMut where
  end_ : Nat
  deriving DecidableEq, Repr

/-- `SliceGuardMut::new` (reached via `RWVec::writer`): take an exclusive
hold on the resize lock and record `end = vec.len()`. -/
def SliceGuardMut.new {T : Type} (v : RWVec T) : SliceGuardMut × List Event :=
  ({ end_ := v.data.length }, [.writeLock])

/-- `RWVec::writer`. -/
def RWVec.writer {T : Type} (v : RWVec T) : SliceGuardMut × List Event :=
  SliceGuardMut.new v

/-- `SliceGuardMut::refresh`: release the exclusive resize hold, lock the
push mutex, re-take the exclusive resize hold, set `end = vec.len()`,
unlock the push mutex — in that source order. -/
def SliceGuardMut.refresh {T : Type} (_g : SliceGuardMut) (v : RWVec T) :
    SliceGuardMut × List Event :=
  ({ end_ := v.data.length },
   [.writeUnlock, .pushLock, .writeLock, .setEnd v.data.length, .pushUnlock])

/-- `Drop for SliceGuardMut`: release the exclusive resize hold. -/
def SliceGuardMut.dropEvents : List Event := [.writeUnlock]

/-- `Deref for SliceGuardMut`: `&self.vec[..self.end]`, as for
`SliceGuard`. -/
def SliceGuardMut.view {T : Type} (g : SliceGuardMut) (v : RWVec T) :
    Option (List T) :=
  if g.end_ ≤ v.data.length then some (v.data.take g.end_) else none

/-- `DerefMut for SliceGuardMut` followed by an indexed store:
`(&mut self.vec[..self.end])[i] = t`.  Both the slice bound and the index
are range-checked by Rust (panic modelled as `none`); the element is
replaced in place, the length is untouched. -/
def SliceGuardMut.setElem {T : Type} (g : SliceGuardMut) (v : RWVec T)
    (i : Nat) (t : T) : Option (RWVec T) :=
  if g.end_ ≤ v.data.length ∧ i < g.end_ then
    some { v with data := v.data.set i t }
  else none

/-- `VecGuardMut::new`: lock the push mutex. -/
def VecGuardMut.newEvents : List Event := [.pushLock]

/-- `Deref for VecGuardMut`: the whole `Vec`, not a bounded slice. -/
def VecGuardMut.view {T : Type} (v : RWVec T) : List T := v.data

/-- `Drop for VecGuardMut`: unlock the push mutex (and nothing else). -/
def VecGuardMut.dropEvents : List Event := [.pushUnlock]

/-- `SliceGuardMut::upgrade` (takes `&self`): release the exclusive resize
hold, construct the `VecGuardMut` (whose constructor locks the push mutex),
re-take the exclusive resize hold.  The body consists of lock calls only,
so the guard and the `Vec` come back unchanged. -/
def SliceGuardMut.upgrade {T : Type} (g : SliceGuardMut) (v : RWVec T) :
    SliceGuardMut × RWVec T × List Event :=
  (g, v, [.writeUnlock] ++ VecGuardMut.newEvents ++ [.writeLock])

/-- One container-mutating step that can happen between two points of a
guard's lifetime: an `RWVec::push` from some thread, or a mutation through
the `&mut Vec<T>` that an upgraded `VecGuardMut` exposes (`Vec::push`,
`Vec::truncate`, an indexed store). -/
inductive Op (T : Type) : Type
  | push (t : T)
  | exclPush (t : T)
  | exclTruncate (n : Nat)
  | exclSet (i : Nat) (t : T)
  deriving DecidableEq, Repr

/-- Effect of one step on the container.  `exclPush` is `Vec::push` called
directly through the exclusive view (no locks); `exclTruncate` is
`Vec::truncate` (drops elements past `n`, no-op when `n ≥ len`);
`exclSet` stores in place (the Rust index panic is irrelevant here since
`List.set` past the end is a no-op and the claims below only inspect the
length). -/
def applyOp {T : Type} (v : RWVec T) : Op T → RWVec T
  | .push t => (v.push t).1
  | .exclPush t =>
      if v.capacity = v.data.length then
        { data := v.data ++ [t], capacity := growCapacity v.capacity }
      else
        { data := v.data ++ [t], capacity := v.capacity }
  | .exclTruncate n => { v with data := v.data.take n }
  | .exclSet i t => { v with data := v.data.set i t }

/-- Effect of a sequence of steps on the container. -/
def applyOps {T : Type} (v : RWVec T) (ops : List (Op T)) : RWVec T :=
  ops.foldl applyOp v

/-- The steps that append an element (through `RWVec::push` or through the
exclusive view). -/
def Op.isAppend {T : Type} : Op T → Bool
  | .push _ => true
  | .exclPush _ => true
  | .exclTruncate _ => false
  | .exclSet _ _ => false

/-- The steps that may shrink the container (`Vec::truncate` through the
exclusive view). -/
def Op.isTruncate {T : Type} : Op T → Bool
  | .push _ => false
  | .exclPush _ => false
  | .exclTruncate _ => true
  | .exclSet _ _ => false

/-- Iterated `RWVec::push`: pushing the elements of `ts` one by one, from a
single thread, discarding the event traces. -/
def pushSeq {T : Type} (v : RWVec T) (ts : List T) : RWVec T :=
  ts.foldl (fun w t => (w.push t).1) v

/-! ## Helper lemmas -/

/-- Either branch of `RWVec::push` appends the element at the tail. -/
theorem push_fst_data {T : Type} (v : RWVec T) (t : T) :
    ((v.push t).1).data = v.data ++ [t] := by
  unfold RWVec.push
  split <;> rfl

/-- `RWVec::push` increments the length by one. -/
theorem push_fst_length {T : Type} (v : RWVec T) (t : T) :
    ((v.push t).1).data.length = v.data.length + 1 := by
  rw [push_fst_data, List.length_append, List.length_singleton]

/-- Iterated `RWVec::push` appends the pushed elements at the tail, in
order. -/
theorem pushSeq_data {T : Type} (v : RWVec T) (ts : List T) :
    (pushSeq v ts).data = v.data ++ ts := by
  induction ts generalizing v with
  | nil => simp [pushSeq]
  | cons t ts ih =>
      show (pushSeq ((v.push t).1) ts).data = v.data ++ t :: ts
      rw [ih, push_fst_data]
      simp

/-- A step that is not a truncation never shrinks the container. -/
theorem applyOp_length_le {T : Type} (v : RWVec T) (op : Op T)
    (h : op.isTruncate = false) :
    v.data.length ≤ (applyOp v op).data.length := by
  cases op with
  | push t =>
      show v.data.length ≤ ((v.push t).1).data.length
      rw [push_fst_length]
      exact Nat.le_succ _
  | exclPush t =>
      show v.data.length ≤ (applyOp v (Op.exclPush t)).data.length
      simp only [applyOp]
      split <;> simp
  | exclTruncate n =>
      simp [Op.isTruncate] at h
  | exclSet i t =>
      show v.data.length ≤ (v.data.set i t).length
      rw [List.length_set]

/-- A truncation-free sequence of steps never shrinks the container. -/
theorem applyOps_length_le {T : Type} (v : RWVec T) (ops : List (Op T))
    (h : ∀ op ∈ ops, op.isTruncate = false) :
    v.data.length ≤ (applyOps v ops).data.length := by
  induction ops generalizing v with
  | nil => exact Nat.le_refl _
  | cons op ops ih =>
      have h1 : op.isTruncate = false := h op (List.mem_cons_self op ops)
      have h2 : ∀ o ∈ ops, o.isTruncate = false :=
        fun o ho => h o (List.mem_cons_of_mem op ho)
      calc v.data.length ≤ (applyOp v op).data.length := applyOp_length_le v op h1
        _ ≤ (applyOps (applyOp v op) ops).data.length := ih (applyOp v op) h2

/-- A sequence of steps with no append and no truncation preserves the
container's length (only in-place stores remain). -/
theorem applyOps_length_eq {T : Type} (v : RWVec T) (ops : List (Op T))
    (h : ∀ op ∈ ops, op.isAppend = false ∧ op.isTruncate = false) :
    (applyOps v ops).data.length = v.data.length := by
  induction ops generalizing v with
  | nil => rfl
  | cons op ops ih =>
      have h1 := h op (List.mem_cons_self op ops)
      have h2 : ∀ o ∈ ops, o.isAppend = false ∧ o.isTruncate = false :=
        fun o ho => h o (List.mem_cons_of_mem op ho)
      have hstep : (applyOp v op).data.length = v.data.length := by
        cases op with
        | push t => simp [Op.isAppend] at h1
        | exclPush t => simp [Op.isAppend] at h1
        | exclTruncate n => simp [Op.isTruncate] at h1
        | exclSet i t =>
            show (v.data.set i t).length = v.data.length
            exact List.length_set v.data i t
      show (applyOps (applyOp v op) ops).data.length = v.data.length
      rw [ih (applyOp v op) h2, hstep]

/-! ## Claim theorems -/

/-- Claim C3: `SliceGuardMut::upgrade` performs exactly these lock steps in
this order: release the exclusive resize-lock hold, acquire the push lock
(inside `VecGuardMut::new`), re-acquire the exclusive resize-lock hold; and
after replaying its trace from any lock state, both the push lock and the
exclusive resize-lock hold are held. -/
theorem upgrade_lock_order {T : Type} (g : SliceGuardMut) (v : RWVec T)
    (s : LockState) :
    (g.upgrade v).2.2 = [Event.writeUnlock, Event.pushLock, Event.writeLock]
    ∧ (s.applyAll (g.upgrade v).2.2).pushHeld = true
    ∧ (s.applyAll (g.upgrade v).2.2).writerHeld = true :=
  ⟨rfl, rfl, rfl⟩

/-- Claim C4: `refresh` on either snapshot guard performs exactly: release
the guard's resize-lock hold (shared for `SliceGuard`, exclusive for
`SliceGuardMut`), acquire the push lock, re-acquire the resize-lock hold in
the same mode, set `end` to the container's current length, release the
push lock — in that order. -/
theorem refresh_lock_order {T : Type} (g : SliceGuard) (gm : SliceGuardMut)
    (v : RWVec T) :
    (g.refresh v).2 = [Event.readUnlock, Event.pushLock, Event.readLock,
        Event.setEnd v.data.length, Event.pushUnlock]
    ∧ (g.refresh v).1.end_ = v.data.length
    ∧ (gm.refresh v).2 = [Event.writeUnlock, Event.pushLock, Event.writeLock,
        Event.setEnd v.data.length, Event.pushUnlock]
    ∧ (gm.refresh v).1.end_ = v.data.length :=
  ⟨rfl, rfl, rfl, rfl⟩

/-- Claim C5: `RWVec::push` first takes the push lock; with spare capacity
(`len < capacity`) the element is written and the length incremented with no
resize-lock operation at all; with capacity exhausted (`len = capacity`) the
resize lock is taken exclusively around the reallocating push and released
before the push lock. -/
theorem push_lock_protocol {T : Type} (v : RWVec T) (t : T) :
    (v.push t).2.head? = some Event.pushLock
    ∧ (v.data.length < v.capacity →
        (v.push t).2 = [Event.pushLock, Event.pushElem, Event.pushUnlock]
        ∧ (v.push t).1.data = v.data ++ [t]
        ∧ (v.push t).1.data.length = v.data.length + 1
        ∧ Event.writeLock ∉ (v.push t).2
        ∧ Event.writeUnlock ∉ (v.push t).2
        ∧ Event.readLock ∉ (v.push t).2
        ∧ Event.readUnlock ∉ (v.push t).2)
    ∧ (v.data.length = v.capacity →
        (v.push t).2 = [Event.pushLock, Event.writeLock, Event.pushElem,
            Event.writeUnlock, Event.pushUnlock]
        ∧ (v.push t).1.data = v.data ++ [t]
        ∧ (v.push t).1.data.length = v.data.length + 1) := by
  by_cases h : v.capacity = v.data.length
  · refine ⟨?_, ?_, ?_⟩
    · simp [RWVec.push, h]
    · intro hlt
      exact absurd h (ne_of_gt hlt)
    · intro _
      refine ⟨?_, ?_, ?_⟩
      · simp [RWVec.push, h]
      · exact push_fst_data v t
      · exact push_fst_length v t
  · refine ⟨?_, ?_, ?_⟩
    · simp [RWVec.push, h]
    · intro _
      refine ⟨?_, push_fst_data v t, push_fst_length v t, ?_, ?_, ?_, ?_⟩ <;>
        simp [RWVec.push, h]
    · intro he
      exact absurd he.symm h

/-- Claim C5 witness: the two branches at concrete inputs — a container of
length 1 and capacity 2 (spare capacity), and one of length 1 and
capacity 1 (exhausted). -/
theorem push_lock_protocol_witness :
    ((RWVec.mk [0] 2 : RWVec Nat).push 5).2
      = [Event.pushLock, Event.pushElem, Event.pushUnlock]
    ∧ ((RWVec.mk [0] 1 : RWVec Nat).push 5).2
      = [Event.pushLock, Event.writeLock, Event.pushElem,
         Event.writeUnlock, Event.pushUnlock] :=
  ⟨((push_lock_protocol (RWVec.mk [0] 2) 5).2.1 (by decide)).1,
   ((push_lock_protocol (RWVec.mk [0] 1) 5).2.2 (by decide)).1⟩

/-- Claim C6: dropping a `VecGuardMut` performs exactly one lock operation,
the push-lock release — in particular it does not release the resize lock;
the exclusive resize hold is released only when the originating
`SliceGuardMut` is itself dropped. -/
theorem vecGuardMut_drop_frame :
    VecGuardMut.dropEvents = [Event.pushUnlock]
    ∧ VecGuardMut.dropEvents.length = 1
    ∧ Event.writeUnlock ∉ VecGuardMut.dropEvents
    ∧ Event.readUnlock ∉ VecGuardMut.dropEvents
    ∧ SliceGuardMut.dropEvents = [Event.writeUnlock] := by
  refine ⟨rfl, rfl, by decide, by decide, rfl⟩

/-- Claim C1 counterexample: a write snapshot on the container `[4]` of
capacity 1 records `end = 1`; a `Vec::truncate(0)` through the exclusive
view obtained by `upgrade` empties the buffer; after the exclusive view is
dropped, a `push(5)` takes the non-reallocating branch (capacity 1, length
0 — no resize-lock event, so it proceeds while the snapshot is alive).
The pushed element lands at index 0, inside the snapshot's stale bounded
view `[0, 1)`: the pre-push snapshot reaches the new element with no
`refresh` — its view even changes from a panic (`none`) to `some [5]`. -/
theorem push_visibility_counterexample :
    (SliceGuardMut.new (RWVec.mk [4] 1 : RWVec Nat)).1.end_ = 1
    ∧ ((applyOps (RWVec.mk [4] 1 : RWVec Nat) [Op.exclTruncate 0]).push 5).2
      = [Event.pushLock, Event.pushElem, Event.pushUnlock]
    ∧ (applyOps (RWVec.mk [4] 1 : RWVec Nat) [Op.exclTruncate 0]).data.length
      < (SliceGuardMut.new (RWVec.mk [4] 1 : RWVec Nat)).1.end_
    ∧ ¬ ((SliceGuardMut.new (RWVec.mk [4] 1 : RWVec Nat)).1.view
          ((applyOps (RWVec.mk [4] 1 : RWVec Nat) [Op.exclTruncate 0]).push 5).1
        = (SliceGuardMut.new (RWVec.mk [4] 1 : RWVec Nat)).1.view
            (applyOps (RWVec.mk [4] 1 : RWVec Nat) [Op.exclTruncate 0]))
    ∧ (SliceGuardMut.new (RWVec.mk [4] 1 : RWVec Nat)).1.view
        ((applyOps (RWVec.mk [4] 1 : RWVec Nat) [Op.exclTruncate 0]).push 5).1
      = some [5] := by
  decide

/-- Claim C1, amended: once `push` returns, the new element sits at index
`v.data.length` with its value intact; a read or write snapshot acquired
afterwards has `end` = old length + 1 and views it, as does an existing
snapshot of either kind after `refresh`; and a snapshot of either kind
acquired before the push does not reach the element through its bounded
view `[0, end)`, which the push leaves unchanged, provided the snapshot's
`end` is at most the container's length at the instant of the push — as
holds at acquisition and after every `refresh`, and can fail only after a
length-decreasing exclusive-view operation (`Vec::truncate`) has dropped
the length below the guard's `end`. -/
theorem push_visibility {T : Type} (v : RWVec T) (t : T)
    (g : SliceGuard) (gm : SliceGuardMut)
    (hg : g.end_ ≤ v.data.length) (hgm : gm.end_ ≤ v.data.length) :
    (SliceGuard.new (v.push t).1).1.end_ = v.data.length + 1
    ∧ (SliceGuard.new (v.push t).1).1.view (v.push t).1 = some (v.data ++ [t])
    ∧ (SliceGuardMut.new (v.push t).1).1.end_ = v.data.length + 1
    ∧ (SliceGuardMut.new (v.push t).1).1.view (v.push t).1 = some (v.data ++ [t])
    ∧ (v.data ++ [t]).get? v.data.length = some t
    ∧ (g.refresh (v.push t).1).1.end_ = v.data.length + 1
    ∧ (g.refresh (v.push t).1).1.view (v.push t).1 = some (v.data ++ [t])
    ∧ (gm.refresh (v.push t).1).1.end_ = v.data.length + 1
    ∧ (gm.refresh (v.push t).1).1.view (v.push t).1 = some (v.data ++ [t])
    ∧ ¬ v.data.length < g.end_
    ∧ ¬ v.data.length < gm.end_
    ∧ g.view (v.push t).1 = g.view v
    ∧ gm.view (v.push t).1 = gm.view v := by
  have hd : ((v.push t).1).data = v.data ++ [t] := push_fst_data v t
  have hlen : ((v.push t).1).data.length = v.data.length + 1 := push_fst_length v t
  have hg' : g.end_ ≤ ((v.push t).1).data.length := by
    rw [hlen]
    exact hg.trans (Nat.le_succ _)
  have hgm' : gm.end_ ≤ ((v.push t).1).data.length := by
    rw [hlen]
    exact hgm.trans (Nat.le_succ _)
  refine ⟨?_, ?_, ?_, ?_, ?_, ?_, ?_, ?_, ?_, ?_, ?_, ?_, ?_⟩
  · show ((v.push t).1).data.length = v.data.length + 1
    exact hlen
  · show SliceGuard.view _ _ = _
    simp only [SliceGuard.view, SliceGuard.new]
    rw [if_pos (Nat.le_refl _), List.take_length, hd]
  · show ((v.push t).1).data.length = v.data.length + 1
    exact hlen
  · show SliceGuardMut.view _ _ = _
    simp only [SliceGuardMut.view, SliceGuardMut.new]
    rw [if_pos (Nat.le_refl _), List.take_length, hd]
  · rw [List.get?_eq_getElem?]
    exact List.getElem?_concat_length v.data t
  · show ((v.push t).1).data.length = v.data.length + 1
    exact hlen
  · show SliceGuard.view _ _ = _
    simp only [SliceGuard.view, SliceGuard.refresh]
    rw [if_pos (Nat.le_refl _), List.take_length, hd]
  · show ((v.push t).1).data.length = v.data.length + 1
    exact hlen
  · show SliceGuardMut.view _ _ = _
    simp only [SliceGuardMut.view, SliceGuardMut.refresh]
    rw [if_pos (Nat.le_refl _), List.take_length, hd]
  · exact Nat.not_lt.mpr hg
  · exact Nat.not_lt.mpr hgm
  · simp only [SliceGuard.view]
    rw [if_pos hg', if_pos hg, hd, List.take_append_of_le_length hg]
  · simp only [SliceGuardMut.view]
    rw [if_pos hgm', if_pos hgm, hd, List.take_append_of_le_length hgm]

/-- Claim C1 witness: container `[3]` with capacity 2, pushing `5`, against
a read and a write snapshot acquired before the push (`end = 1`). -/
theorem push_visibility_witness :
    (SliceGuard.mk 1).end_ ≤ (RWVec.mk [3] 2 : RWVec Nat).data.length
    ∧ (SliceGuardMut.mk 1).end_ ≤ (RWVec.mk [3] 2 : RWVec Nat).data.length
    ∧ ((SliceGuard.new ((RWVec.mk [3] 2 : RWVec Nat).push 5).1).1.end_ = 2
      ∧ (SliceGuard.new ((RWVec.mk [3] 2 : RWVec Nat).push 5).1).1.view
          ((RWVec.mk [3] 2 : RWVec Nat).push 5).1 = some [3, 5]
      ∧ (SliceGuardMut.new ((RWVec.mk [3] 2 : RWVec Nat).push 5).1).1.end_ = 2
      ∧ (SliceGuardMut.new ((RWVec.mk [3] 2 : RWVec Nat).push 5).1).1.view
          ((RWVec.mk [3] 2 : RWVec Nat).push 5).1 = some [3, 5]
      ∧ ([3] ++ [5]).get? 1 = some 5
      ∧ ((SliceGuard.mk 1).refresh ((RWVec.mk [3] 2 : RWVec Nat).push 5).1).1.end_ = 2
      ∧ ((SliceGuard.mk 1).refresh ((RWVec.mk [3] 2 : RWVec Nat).push 5).1).1.view
          ((RWVec.mk [3] 2 : RWVec Nat).push 5).1 = some [3, 5]
      ∧ ((SliceGuardMut.mk 1).refresh ((RWVec.mk [3] 2 : RWVec Nat).push 5).1).1.end_ = 2
      ∧ ((SliceGuardMut.mk 1).refresh ((RWVec.mk [3] 2 : RWVec Nat).push 5).1).1.view
          ((RWVec.mk [3] 2 : RWVec Nat).push 5).1 = some [3, 5]
      ∧ ¬ (1 : Nat) < (SliceGuard.mk 1).end_
      ∧ ¬ (1 : Nat) < (SliceGuardMut.mk 1).end_
      ∧ (SliceGuard.mk 1).view ((RWVec.mk [3] 2 : RWVec Nat).push 5).1
          = (SliceGuard.mk 1).view (RWVec.mk [3] 2 : RWVec Nat)
      ∧ (SliceGuardMut.mk 1).view ((RWVec.mk [3] 2 : RWVec Nat).push 5).1
          = (SliceGuardMut.mk 1).view (RWVec.mk [3] 2 : RWVec Nat)) :=
  ⟨by decide, by decide,
   push_visibility (RWVec.mk [3] 2) 5 (SliceGuard.mk 1) (SliceGuardMut.mk 1)
     (by decide) (by decide)⟩

/-- Claim C2 counterexample: a write snapshot acquired on a one-element
container records `end = 1`; a `Vec::truncate(0)` performed through the
exclusive view obtained by `upgrade` drops the length to 0, so the
snapshot's `end` now exceeds the container's length. -/
theorem end_le_length_counterexample :
    ¬ ((SliceGuardMut.new (RWVec.mk [0] 1 : RWVec Nat)).1.end_
        ≤ (applyOps (RWVec.mk [0] 1 : RWVec Nat) [Op.exclTruncate 0]).data.length) := by
  decide

/-- Claim C2, amended: for operation sequences that contain no
length-decreasing exclusive-view operation (no `Vec::truncate`), a guard's
recorded `end` — which is at most the length when acquired or refreshed —
stays at most the container's current length, for both snapshot kinds. -/
theorem end_le_length_invariant {T : Type} (v : RWVec T) (ops : List (Op T))
    (hops : ∀ op ∈ ops, op.isTruncate = false)
    (g : SliceGuard) (gm : SliceGuardMut)
    (hg : g.end_ ≤ v.data.length) (hgm : gm.end_ ≤ v.data.length) :
    g.end_ ≤ (applyOps v ops).data.length
    ∧ gm.end_ ≤ (applyOps v ops).data.length :=
  ⟨hg.trans (applyOps_length_le v ops hops),
   hgm.trans (applyOps_length_le v ops hops)⟩

/-- Claim C2 witness: a push and an in-place store after acquiring both
guards on a one-element container. -/
theorem end_le_length_invariant_witness :
    (∀ op ∈ ([Op.push 7, Op.exclSet 0 9] : List (Op Nat)), op.isTruncate = false)
    ∧ (SliceGuard.mk 1).end_ ≤ (RWVec.mk [4] 1 : RWVec Nat).data.length
    ∧ (SliceGuardMut.mk 1).end_ ≤ (RWVec.mk [4] 1 : RWVec Nat).data.length
    ∧ ((SliceGuard.mk 1).end_
        ≤ (applyOps (RWVec.mk [4] 1 : RWVec Nat) [Op.push 7, Op.exclSet 0 9]).data.length
      ∧ (SliceGuardMut.mk 1).end_
        ≤ (applyOps (RWVec.mk [4] 1 : RWVec Nat) [Op.push 7, Op.exclSet 0 9]).data.length) :=
  ⟨by decide, by decide, by decide,
   end_le_length_invariant (RWVec.mk [4] 1) [Op.push 7, Op.exclSet 0 9] (by decide)
     (SliceGuard.mk 1) (SliceGuardMut.mk 1) (by decide) (by decide)⟩

/-- Claim C7 counterexample: a write snapshot with `end = 1`; after a
`Vec::truncate(0)` through the exclusive view, `refresh` sets `end` to 0,
strictly below its previous value. -/
theorem refresh_monotone_counterexample :
    ¬ ((SliceGuardMut.new (RWVec.mk [4] 1 : RWVec Nat)).1.end_
        ≤ ((SliceGuardMut.new (RWVec.mk [4] 1 : RWVec Nat)).1.refresh
            (applyOps (RWVec.mk [4] 1 : RWVec Nat) [Op.exclTruncate 0])).1.end_) := by
  decide

/-- Claim C7, amended: `end` after `refresh` always equals the container's
length at the instant of the call; it is moreover at least its previous
value provided the intervening operations contain no length-decreasing
exclusive-view operation (no `Vec::truncate`). -/
theorem refresh_end_monotone {T : Type} (v : RWVec T) (ops : List (Op T))
    (hops : ∀ op ∈ ops, op.isTruncate = false)
    (g : SliceGuard) (gm : SliceGuardMut)
    (hg : g.end_ ≤ v.data.length) (hgm : gm.end_ ≤ v.data.length) :
    (g.refresh (applyOps v ops)).1.end_ = (applyOps v ops).data.length
    ∧ g.end_ ≤ (g.refresh (applyOps v ops)).1.end_
    ∧ (gm.refresh (applyOps v ops)).1.end_ = (applyOps v ops).data.length
    ∧ gm.end_ ≤ (gm.refresh (applyOps v ops)).1.end_ :=
  ⟨rfl, hg.trans (applyOps_length_le v ops hops),
   rfl, hgm.trans (applyOps_length_le v ops hops)⟩

/-- Claim C7 witness: one intervening push on a one-element container. -/
theorem refresh_end_monotone_witness :
    (∀ op ∈ ([Op.push 7] : List (Op Nat)), op.isTruncate = false)
    ∧ (SliceGuard.mk 1).end_ ≤ (RWVec.mk [4] 1 : RWVec Nat).data.length
    ∧ (SliceGuardMut.mk 1).end_ ≤ (RWVec.mk [4] 1 : RWVec Nat).data.length
    ∧ (((SliceGuard.mk 1).refresh
          (applyOps (RWVec.mk [4] 1 : RWVec Nat) [Op.push 7])).1.end_ = 2
      ∧ (SliceGuard.mk 1).end_
        ≤ ((SliceGuard.mk 1).refresh
            (applyOps (RWVec.mk [4] 1 : RWVec Nat) [Op.push 7])).1.end_
      ∧ ((SliceGuardMut.mk 1).refresh
          (applyOps (RWVec.mk [4] 1 : RWVec Nat) [Op.push 7])).1.end_ = 2
      ∧ (SliceGuardMut.mk 1).end_
        ≤ ((SliceGuardMut.mk 1).refresh
            (applyOps (RWVec.mk [4] 1 : RWVec Nat) [Op.push 7])).1.end_) :=
  ⟨by decide, by decide, by decide,
   refresh_end_monotone (RWVec.mk [4] 1) [Op.push 7] (by decide)
     (SliceGuard.mk 1) (SliceGuardMut.mk 1) (by decide) (by decide)⟩

/-- Claim C8 counterexample: a `Vec::truncate(0)` through the exclusive
view is not an append, yet a subsequent `refresh` changes the write
snapshot's `end` from 1 to 0. -/
theorem refresh_idempotent_counterexample :
    (∀ op ∈ ([Op.exclTruncate 0] : List (Op Nat)), op.isAppend = false)
    ∧ ¬ (((SliceGuardMut.new (RWVec.mk [4] 1 : RWVec Nat)).1.refresh
          (applyOps (RWVec.mk [4] 1 : RWVec Nat) [Op.exclTruncate 0])).1.end_
        = (SliceGuardMut.new (RWVec.mk [4] 1 : RWVec Nat)).1.end_) := by
  decide

/-- Claim C8, amended: if, since the point where the guard's `end` was last
synchronized to the container's length (acquisition or a previous
`refresh`), no append and no length-decreasing exclusive-view operation
occurred, then `refresh` leaves `end` unchanged, for both snapshot kinds. -/
theorem refresh_idempotent_no_append {T : Type} (v : RWVec T)
    (ops : List (Op T))
    (hops : ∀ op ∈ ops, op.isAppend = false ∧ op.isTruncate = false)
    (g : SliceGuard) (gm : SliceGuardMut)
    (hg : g.end_ = v.data.length) (hgm : gm.end_ = v.data.length) :
    (g.refresh (applyOps v ops)).1.end_ = g.end_
    ∧ (gm.refresh (applyOps v ops)).1.end_ = gm.end_ := by
  have h := applyOps_length_eq v ops hops
  constructor
  · show (applyOps v ops).data.length = g.end_
    rw [h, hg]
  · show (applyOps v ops).data.length = gm.end_
    rw [h, hgm]

/-- Claim C8 witness: an in-place store (no append, no truncation) between
acquisition and `refresh` leaves `end` at 1 for both guards. -/
theorem refresh_idempotent_no_append_witness :
    (∀ op ∈ ([Op.exclSet 0 9] : List (Op Nat)),
        op.isAppend = false ∧ op.isTruncate = false)
    ∧ (SliceGuard.mk 1).end_ = (RWVec.mk [4] 1 : RWVec Nat).data.length
    ∧ (SliceGuardMut.mk 1).end_ = (RWVec.mk [4] 1 : RWVec Nat).data.length
    ∧ (((SliceGuard.mk 1).refresh
          (applyOps (RWVec.mk [4] 1 : RWVec Nat) [Op.exclSet 0 9])).1.end_
        = (SliceGuard.mk 1).end_
      ∧ ((SliceGuardMut.mk 1).refresh
          (applyOps (RWVec.mk [4] 1 : RWVec Nat) [Op.exclSet 0 9])).1.end_
        = (SliceGuardMut.mk 1).end_) :=
  ⟨by decide, by decide, by decide,
   refresh_idempotent_no_append (RWVec.mk [4] 1) [Op.exclSet 0 9] (by decide)
     (SliceGuard.mk 1) (SliceGuardMut.mk 1) (by decide) (by decide)⟩

/-- Claim C9: starting from `RWVec::new()`, after the k-th of five
sequential pushes a freshly acquired read snapshot has `end = k` and its
bounded view holds exactly the first k elements in push order. -/
theorem sequential_appends {T : Type} (a1 a2 a3 a4 a5 : T) :
    ((SliceGuard.new (pushSeq (RWVec.new T) [a1])).1.end_ = 1
      ∧ (SliceGuard.new (pushSeq (RWVec.new T) [a1])).1.view
          (pushSeq (RWVec.new T) [a1]) = some [a1])
    ∧ ((SliceGuard.new (pushSeq (RWVec.new T) [a1, a2])).1.end_ = 2
      ∧ (SliceGuard.new (pushSeq (RWVec.new T) [a1, a2])).1.view
          (pushSeq (RWVec.new T) [a1, a2]) = some [a1, a2])
    ∧ ((SliceGuard.new (pushSeq (RWVec.new T) [a1, a2, a3])).1.end_ = 3
      ∧ (SliceGuard.new (pushSeq (RWVec.new T) [a1, a2, a3])).1.view
          (pushSeq (RWVec.new T) [a1, a2, a3]) = some [a1, a2, a3])
    ∧ ((SliceGuard.new (pushSeq (RWVec.new T) [a1, a2, a3, a4])).1.end_ = 4
      ∧ (SliceGuard.new (pushSeq (RWVec.new T) [a1, a2, a3, a4])).1.view
          (pushSeq (RWVec.new T) [a1, a2, a3, a4]) = some [a1, a2, a3, a4])
    ∧ ((SliceGuard.new (pushSeq (RWVec.new T) [a1, a2, a3, a4, a5])).1.end_ = 5
      ∧ (SliceGuard.new (pushSeq (RWVec.new T) [a1, a2, a3, a4, a5])).1.view
          (pushSeq (RWVec.new T) [a1, a2, a3, a4, a5])
        = some [a1, a2, a3, a4, a5]) := by
  refine ⟨⟨?_, ?_⟩, ⟨?_, ?_⟩, ⟨?_, ?_⟩, ⟨?_, ?_⟩, ⟨?_, ?_⟩⟩ <;>
    simp only [SliceGuard.new, SliceGuard.view, pushSeq_data, RWVec.new,
      List.nil_append] <;>
    rfl

/-- Claim C10: `upgrade` returns the guard and the buffer unchanged (its
body is lock calls only), so the snapshot keeps its pre-upgrade `end`; the
`VecGuardMut` view is the whole buffer, so an index at or beyond the
snapshot's `end` (but within the buffer) is reachable through it while the
snapshot's own bounded view does not contain that index. -/
theorem upgrade_frame {T : Type} (g : SliceGuardMut) (v : RWVec T) (i : Nat)
    (hi : g.end_ ≤ i) (hlen : i < v.data.length) :
    (g.upgrade v).1 = g
    ∧ (g.upgrade v).2.1 = v
    ∧ (g.upgrade v).1.end_ = g.end_
    ∧ VecGuardMut.view (g.upgrade v).2.1 = v.data
    ∧ (VecGuardMut.view (g.upgrade v).2.1).get? i = v.data.get? i
    ∧ v.data.get? i ≠ none
    ∧ (v.data.take g.end_).get? i = none
    ∧ (g.upgrade v).1.view (g.upgrade v).2.1 = g.view v := by
  refine ⟨rfl, rfl, rfl, rfl, rfl, ?_, ?_, rfl⟩
  · intro hnone
    exact absurd (List.get?_eq_none.mp hnone) (Nat.not_le.mpr hlen)
  · apply List.get?_len_le
    rw [List.length_take]
    exact le_trans (min_le_left _ _) hi

/-- Claim C10 witness: guard with `end = 1` over the two-element container
`[10, 20]`, probing index 1. -/
theorem upgrade_frame_witness :
    (SliceGuardMut.mk 1).end_ ≤ 1
    ∧ 1 < (RWVec.mk [10, 20] 2 : RWVec Nat).data.length
    ∧ (((SliceGuardMut.mk 1).upgrade (RWVec.mk [10, 20] 2 : RWVec Nat)).1
        = SliceGuardMut.mk 1
      ∧ ((SliceGuardMut.mk 1).upgrade (RWVec.mk [10, 20] 2 : RWVec Nat)).2.1
        = RWVec.mk [10, 20] 2
      ∧ ((SliceGuardMut.mk 1).upgrade (RWVec.mk [10, 20] 2 : RWVec Nat)).1.end_ = 1
      ∧ VecGuardMut.view
          ((SliceGuardMut.mk 1).upgrade (RWVec.mk [10, 20] 2 : RWVec Nat)).2.1
        = [10, 20]
      ∧ (VecGuardMut.view
          ((SliceGuardMut.mk 1).upgrade (RWVec.mk [10, 20] 2 : RWVec Nat)).2.1).get? 1
        = ([10, 20] : List Nat).get? 1
      ∧ ([10, 20] : List Nat).get? 1 ≠ none
      ∧ (([10, 20] : List Nat).take 1).get? 1 = none
      ∧ ((SliceGuardMut.mk 1).upgrade (RWVec.mk [10, 20] 2 : RWVec Nat)).1.view
          ((SliceGuardMut.mk 1).upgrade (RWVec.mk [10, 20] 2 : RWVec Nat)).2.1
        = (SliceGuardMut.mk 1).view (RWVec.mk [10, 20] 2 : RWVec Nat)) :=
  ⟨by decide, by decide,
   upgrade_frame (SliceGuardMut.mk 1) (RWVec.mk [10, 20] 2) 1 (by decide) (by decide)⟩

end Snapshot
